import Mathlib

/-!
Verification of the NCLEXQ response-parsing layer (src/app.py).

The Lean definitions below are a shallow embedding of the two parsing
functions of the repository, `parse_questions_from_csv` and
`parse_questions`, together with the parts of the Python standard library
they rely on (`str` methods, `re.search`/`re.match`/`re.split`,
`csv.reader` with `skipinitialspace=True`, `json.loads`).  A Python
exception is modelled as `Except.error`; a normal `return parsed, msg`
is `Except.ok (parsed, msg)`.
-/

set_option maxRecDepth 100000

namespace NCLEXQ

/-- Whitespace characters of Python `str.strip()` / `str.isspace()` and of
`\s` in a unicode regular expression. -/
def isPySpace (c : Char) : Bool :=
  c = ' ' ∨ c = '\t' ∨ c = '\n' ∨ c = '\x0b' ∨ c = '\x0c' ∨ c = '\r' ∨
  c = '\x1c' ∨ c = '\x1d' ∨ c = '\x1e' ∨ c = '\x1f' ∨ c = '\x85' ∨
  c = '\xa0' ∨ c = ' ' ∨ (' ' ≤ c ∧ c ≤ ' ') ∨
  c = ' ' ∨ c = ' ' ∨ c = ' ' ∨ c = ' ' ∨ c = '　'

/-- Line-break characters of Python `str.splitlines()`. -/
def isLineBreak (c : Char) : Bool :=
  c = '\n' ∨ c = '\r' ∨ c = '\x0b' ∨ c = '\x0c' ∨ c = '\x1c' ∨
  c = '\x1d' ∨ c = '\x1e' ∨ c = '\x85' ∨ c = ' ' ∨ c = ' '

/-- Remove characters satisfying `p` from both ends of a character list. -/
def stripWhileL (p : Char → Bool) (cs : List Char) : List Char :=
  ((cs.dropWhile p).reverse.dropWhile p).reverse

/-- Python `str.strip()` on a character list. -/
def pyStripL (cs : List Char) : List Char := stripWhileL isPySpace cs

/-- Python `str.strip()`. -/
def pyStrip (s : String) : String := ⟨pyStripL s.data⟩

/-- Python `str.lower()` (ASCII range; the parser only compares against
ASCII field names and type tokens). -/
def pyLower (s : String) : String := ⟨s.data.map Char.toLower⟩

/-- Python `str.upper()` (ASCII range). -/
def pyUpper (s : String) : String := ⟨s.data.map Char.toUpper⟩

/-- Python `str.splitlines()` (without `keepends`); `\r\n` counts as a
single break. -/
def pySplitlinesAux : List Char → List Char → List (List Char)
  | [], acc => if acc.isEmpty then [] else [acc.reverse]
  | '\r' :: '\n' :: rest, acc => acc.reverse :: pySplitlinesAux rest []
  | c :: rest, acc =>
    if isLineBreak c then acc.reverse :: pySplitlinesAux rest []
    else pySplitlinesAux rest (c :: acc)

/-- Python `str.splitlines()` on the character list of a string. -/
def pySplitlines (cs : List Char) : List (List Char) := pySplitlinesAux cs []

/-- A single quote character, for building Python-style messages. -/
def sq : String := String.singleton (Char.ofNat 39)

/-- The backtick character of a fenced-code-block marker. -/
def bq : Char := Char.ofNat 96

/-- The character cleaning of `parse_questions_from_csv` lines 30-36:
byte-order marks removed, curly quotes and apostrophes straightened,
non-breaking space replaced by a space. -/
def cleanChar (c : Char) : List Char :=
  if c = '﻿' then []
  else if c = '“' ∨ c = '”' then ['"']
  else if c = '‘' ∨ c = '’' then [Char.ofNat 39]
  else if c = '\xa0' then [' ']
  else [c]

/-- `output_text.strip()` followed by the `.replace` chain (lines 28-36). -/
def cleanRaw (cs : List Char) : List Char := ((pyStripL cs).map cleanChar).flatten

/-- Content before the first occurrence of a triple backtick, if any
(the match of a non-greedy `(.*?)` followed by three backticks under
`re.DOTALL`). -/
def findTriple : List Char → Option (List Char)
  | a :: b :: c :: rest =>
    if a = bq ∧ b = bq ∧ c = bq then some []
    else (findTriple (b :: c :: rest)).map (a :: ·)
  | _ => none

/-- Try to match three backticks, an ASCII-letter run, and a newline at the
head of the list, returning what follows. -/
def fenceOpen : List Char → Option (List Char)
  | a :: b :: c :: rest =>
    if a = bq ∧ b = bq ∧ c = bq then
      match rest.dropWhile Char.isAlpha with
      | '\n' :: r => some r
      | _ => none
    else none
  | _ => none

/-- Leftmost match of the fence pattern of lines 37-39 and 149-150: the
group-1 content of the first position where three backticks, a letter run
and a newline are followed (anywhere later) by three closing backticks. -/
def fenceSearch : List Char → Option (List Char)
  | [] => none
  | c :: rest =>
    match fenceOpen (c :: rest) with
    | some contentStart =>
      match findTriple contentStart with
      | some content => some content
      | none => fenceSearch rest
    | none => fenceSearch rest

/-- Lines 37-39 (also 149-150): if the fence pattern matches, keep the
stripped group-1 content, otherwise the text unchanged. -/
def applyFence (cs : List Char) : List Char :=
  match fenceSearch cs with
  | some content => pyStripL content
  | none => cs

/-- Case folding used by `re.IGNORECASE` when matching the literal
`question_type`: ASCII case plus the two non-ASCII characters that fold
onto letters of that literal. -/
def reFold (c : Char) : Char :=
  if 'A' ≤ c ∧ c ≤ 'Z' then Char.toLower c
  else if c = 'ſ' then 's'
  else if c = 'K' then 'k'
  else c

/-- Match a literal pattern (given lower-case) case-insensitively at the
head of the input, returning the rest on success. -/
def eatCI : List Char → List Char → Option (List Char)
  | [], cs => some cs
  | _ :: _, [] => none
  | p :: ps, c :: cs => if reFold c = p then eatCI ps cs else none

/-- The header-discovery test of line 48:
`re.match(r"^\s*question_type\s*,", line, re.IGNORECASE)`. -/
def lineMatchesHeader (cs : List Char) : Bool :=
  match eatCI "question_type".data (cs.dropWhile isPySpace) with
  | some rest =>
    match rest.dropWhile isPySpace with
    | ',' :: _ => true
    | _ => false
  | none => false

/-- `lines[header_idx:]` of line 52: the suffix of the line list starting
at the first line matching the header pattern. -/
def findHeaderTail : List (List Char) → Option (List (List Char))
  | [] => none
  | l :: ls => if lineMatchesHeader l then some (l :: ls) else findHeaderTail ls

/-- `"\n".join(lines)`. -/
def joinLines : List (List Char) → List Char
  | [] => []
  | [l] => l
  | l :: ls => l ++ '\n' :: joinLines ls

/-- States of the `csv.reader` character state machine (CPython `_csv.c`,
dialect: delimiter `,`, quote `"`, `doublequote=True`, `escapechar=None`,
`skipinitialspace=True`, non-strict; `QUOTE_ALL` reads like the default). -/
inductive CsvSt where
  | startRecord
  | startField
  | inField
  | inQuoted
  | quoteInQuoted
deriving DecidableEq

/-- Accumulator of the `csv.reader` machine: current state, the current
field (reversed) with its length, the current record (reversed), and the
finished rows (reversed). -/
structure CsvAcc where
  st : CsvSt
  field : List Char
  flen : Nat
  record : List String
  rows : List (List String)

/-- CPython's 128 KiB per-field limit (`csv.field_size_limit()`). -/
def csvFieldLimit : Nat := 131072

/-- Append one character to the current field, enforcing the field size
limit exactly as `parse_add_char` does. -/
def csvAddChar (a : CsvAcc) (c : Char) : Except String CsvAcc :=
  if csvFieldLimit ≤ a.flen then
    .error ("field larger than field limit (" ++ toString csvFieldLimit ++ ")")
  else .ok { a with field := c :: a.field, flen := a.flen + 1 }

/-- Close the current field. -/
def csvSaveField (a : CsvAcc) : CsvAcc :=
  { a with field := [], flen := 0, record := String.mk a.field.reverse :: a.record }

/-- Close the current record. -/
def csvSaveRecord (a : CsvAcc) : CsvAcc :=
  { a with record := [], rows := a.record.reverse :: a.rows }

/-- One step of the `csv.reader` machine on a non-terminator character. -/
def csvStep (a : CsvAcc) (c : Char) : Except String CsvAcc :=
  match a.st with
  | .startRecord =>
    if c = '\n' then .ok (csvSaveRecord a)
    else csvStepField { a with st := .startField } c
  | .startField => csvStepField a c
  | .inField =>
    if c = '\n' then .ok { csvSaveRecord (csvSaveField a) with st := .startRecord }
    else if c = ',' then .ok { csvSaveField a with st := .startField }
    else csvAddChar a c
  | .inQuoted =>
    if c = '"' then .ok { a with st := .quoteInQuoted }
    else csvAddChar a c
  | .quoteInQuoted =>
    if c = '"' then (csvAddChar a c).map ({ · with st := .inQuoted })
    else if c = ',' then .ok { csvSaveField a with st := .startField }
    else if c = '\n' then .ok { csvSaveRecord (csvSaveField a) with st := .startRecord }
    else (csvAddChar a c).map ({ · with st := .inField })
where
  /-- The `START_FIELD` state (also reached by falling through from
  `START_RECORD`). -/
  csvStepField (a : CsvAcc) (c : Char) : Except String CsvAcc :=
    if c = '\n' then .ok { csvSaveRecord (csvSaveField a) with st := .startRecord }
    else if c = '"' then .ok { a with st := .inQuoted }
    else if c = ' ' then .ok a
    else if c = ',' then .ok { csvSaveField a with st := .startField }
    else (csvAddChar a c).map ({ · with st := .inField })

/-- Run the machine over the remaining characters and finish at end of
input (a pending field or quoted field is closed, as the non-strict
reader does). -/
def csvRun : List Char → CsvAcc → Except String (List (List String))
  | [], a =>
    match a.st with
    | .startRecord => .ok a.rows.reverse
    | _ => .ok (csvSaveRecord (csvSaveField a)).rows.reverse
  | c :: cs, a =>
    match csvStep a c with
    | .error e => .error e
    | .ok a2 => csvRun cs a2

/-- `list(csv.reader(io.StringIO(txt), skipinitialspace=True,
quoting=csv.QUOTE_ALL))` — lines 54: either the row list or the message
of a raised `csv.Error`. -/
def csvReader (txt : List Char) : Except String (List (List String)) :=
  csvRun txt ⟨.startRecord, [], 0, [], []⟩

mutual
/-- A decoded JSON value, as produced by `json.loads`.  Numeric literals
are kept as their source text.  Arrays and objects use the mutually
defined list types so that recursion over values stays structural. -/
inductive Json where
  | null
  | bool (b : Bool)
  | num (raw : String)
  | str (s : String)
  | arr (elems : JsonList)
  | obj (fields : JsonFields)
/-- A list of JSON values. -/
inductive JsonList where
  | nil
  | cons (hd : Json) (tl : JsonList)
/-- The fields of a JSON object, in insertion order with unique keys, as
in a Python `dict`. -/
inductive JsonFields where
  | nil
  | cons (k : String) (v : Json) (tl : JsonFields)
end

/-- Convert a JSON array to a meta-level list. -/
def JsonList.toList : JsonList → List Json
  | .nil => []
  | .cons j js => j :: js.toList

/-- The keys of an object, in order. -/
def JsonFields.keys : JsonFields → List String
  | .nil => []
  | .cons k _ fs => k :: fs.keys

/-- Python `dict` lookup. -/
def JsonFields.get (k : String) : JsonFields → Option Json
  | .nil => none
  | .cons k2 v fs => if k2 = k then some v else fs.get k

/-- Python `dict` key membership. -/
def JsonFields.hasKey (k : String) : JsonFields → Bool
  | .nil => false
  | .cons k2 _ fs => k2 = k ∨ fs.hasKey k

/-- Python `dict` insertion: an existing key keeps its position and takes
the new value, a new key is appended. -/
def JsonFields.insert (k : String) (v : Json) : JsonFields → JsonFields
  | .nil => .cons k v .nil
  | .cons k2 v2 fs => if k2 = k then .cons k2 v fs else .cons k2 v2 (fs.insert k v)

/-- A Python exception class, for the exceptions the parsing layer can
raise on its own: `AttributeError` from calling a `str` method on `None`
or on a non-string, `TypeError` from iterating or indexing a value of the
wrong type. -/
inductive PyExn where
  | attributeError
  | typeError
deriving DecidableEq

/-- One accepted question dictionary, lines 123-130 and 196-203.  The
`rationales` values come verbatim from the JSON document on the nested
path, hence `Json`; the tabular path always stores strings. -/
structure Question where
  q : String
  type : String
  choices : List String
  correct_set : List String
  rationales : List (String × Json)
  search_term : String

/-- Per-record outcome: an appended question or an appended skip reason. -/
inductive RowOutcome where
  | emit (q : Question)
  | skip (reason : String)

/-- A `RawFieldRecord`: the `dict(zip(header_lower, cells))` of line 73,
kept as the zipped pairs. -/
def RowMap := List (String × String)

/-- Python `dict` lookup on the zipped pairs: a duplicated key keeps the
value of its last occurrence. -/
def rowGet (r : List (String × String)) (k : String) : Option String :=
  match r with
  | [] => none
  | (k2, v) :: rest =>
    match rowGet rest k with
    | some v2 => some v2
    | none => if k2 = k then some v else none

/-- `row.get(key, default)`. -/
def rowGetD (r : List (String × String)) (k d : String) : String :=
  (rowGet r k).getD d

/-- `_clean_text` of lines 75-77: `s.strip().strip('"').strip()`. -/
def _clean_text (s : String) : String :=
  ⟨pyStripL (stripWhileL (fun c => c = '"') (pyStripL s.data))⟩

/-- `_clean_text` applied to a bare `row.get(key)`: on a missing key the
Python code calls `.strip()` on `None` and raises `AttributeError`. -/
def cleanTextOpt (v : Option String) : Except PyExn String :=
  match v with
  | none => .error .attributeError
  | some s => .ok (_clean_text s)

/-- The question-type synonym set of line 88 (and 165). -/
def sataSynonyms : List String :=
  ["sata", "select_all_that_apply", "select all that apply", "select_all",
   "select all that apply (sata)"]

/-- `list("ABCDEF")` of lines 79 and 159. -/
def all_letters : List String := ["A", "B", "C", "D", "E", "F"]

/-- Line 91: the option map `{L: _clean_text(row.get(f"option_{L.lower()}"))
for L in all_letters if _clean_text(row.get(f"option_{L.lower()}"))}` —
letters with non-empty cleaned values, raising if a constructed key is
absent from the row. -/
def buildOptions (row : RowMap) : List String → Except PyExn (List (String × String))
  | [] => .ok []
  | L :: Ls =>
    match cleanTextOpt (rowGet row ("option_" ++ pyLower L)) with
    | .error e => .error e
    | .ok v =>
      match buildOptions row Ls with
      | .error e => .error e
      | .ok rest => .ok (if v = "" then rest else (L, v) :: rest)

/-- Line 117: the rationale map `{L: _clean_text(row.get(f"rationale_{L.lower()}"))
for L in letters}`, raising if a constructed key is absent. -/
def buildRationales (row : RowMap) : List String → Except PyExn (List (String × Json))
  | [] => .ok []
  | L :: Ls =>
    match cleanTextOpt (rowGet row ("rationale_" ++ pyLower L)) with
    | .error e => .error e
    | .ok v =>
      match buildRationales row Ls with
      | .error e => .error e
      | .ok rest => .ok ((L, Json.str v) :: rest)

/-- Python `re.split(r"[;,\s]+", s)` delimiter class. -/
def isSplitDelim (c : Char) : Bool := c = ';' ∨ c = ',' ∨ isPySpace c

/-- `re.split(r"[;,\s]+", s)`: split on runs of semicolons, commas and
whitespace; boundary delimiters yield empty tokens, as in Python.  The
flag records whether the scan is inside a delimiter run. -/
def reSplitAux : List Char → List Char → Bool → List String
  | [], _, true => [""]
  | [], acc, false => [⟨acc.reverse⟩]
  | c :: rest, acc, inDelim =>
    if isSplitDelim c then
      if inDelim then reSplitAux rest acc true
      else ⟨acc.reverse⟩ :: reSplitAux rest [] true
    else
      if inDelim then reSplitAux rest [c] false
      else reSplitAux rest (c :: acc) false

/-- `re.split(r"[;,\s]+", s)`. -/
def reSplit (s : String) : List String := reSplitAux s.data [] false

/-- Code-point lexicographic order on character lists, the order Python
`sorted` uses on strings. -/
def charListLt : List Char → List Char → Bool
  | [], [] => false
  | [], _ :: _ => true
  | _ :: _, [] => false
  | a :: as, b :: bs =>
    if a.toNat < b.toNat then true
    else if b.toNat < a.toNat then false
    else charListLt as bs

/-- Insert into a sorted duplicate-free list of strings: the combination
of Python's `set.add` with the final `sorted(list(...))`. -/
def setInsert (x : String) : List String → List String
  | [] => [x]
  | y :: ys =>
    if x = y then y :: ys
    else if charListLt x.data y.data then x :: y :: ys
    else y :: setInsert x ys

/-- Lines 103-104: the set comprehension
`{L.upper() for L in re.split(r"[;,\s]+", ca_multi) if L.upper() in letters and L.strip()}`,
returned already sorted (line 127 sorts the set). -/
def multiCorrectSet (letters : List String) (ca_multi : String) : List String :=
  (reSplit ca_multi).foldl
    (fun acc t =>
      if letters.contains (pyUpper t) ∧ pyStrip t ≠ "" then setInsert (pyUpper t) acc
      else acc) []

/-- Python `repr` of a list of plain letter strings, as interpolated by
`f"..., not in {letters}"`. -/
def pyReprStrList (xs : List String) : String :=
  "[" ++ String.intercalate ", " (xs.map (fun s => sq ++ s ++ sq)) ++ "]"

/-- The skip message of line 96. -/
def insufficientMsg (idx : Nat) (qt_raw : String) (minOptions found : Nat) : String :=
  "Row " ++ toString idx ++ ": " ++ pyUpper qt_raw ++ " requires " ++
    toString minOptions ++ " options, found " ++ toString found

/-- The skip message of line 110. -/
def invalidSingleMsg (idx : Nat) (ca_single : String) (letters : List String) : String :=
  "Row " ++ toString idx ++ ": Invalid correct_answer " ++ sq ++ ca_single ++ sq ++
    ", not in " ++ pyReprStrList letters

/-- Line 82: the cleaned stem of a row. -/
def rowQuestionText (row : RowMap) : String := _clean_text (rowGetD row "question" "")

/-- Line 87: the lower-cased type token of a row. -/
def rowQtRaw (row : RowMap) : String := pyLower (rowGetD row "question_type" "")

/-- Line 88: whether the type token is a select-all-that-apply synonym. -/
def rowIsSata (row : RowMap) : Bool := sataSynonyms.contains (rowQtRaw row)

/-- Line 94: the minimum option count for the classified cardinality. -/
def rowMinOptions (row : RowMap) : Nat := if rowIsSata row then 6 else 4

/-- Line 101: the cleaned multi-answer field. -/
def rowCaMulti (row : RowMap) : String := _clean_text (rowGetD row "correct_answers" "")

/-- Line 102: the cleaned single-answer field. -/
def rowCaSingle (row : RowMap) : String := _clean_text (rowGetD row "correct_answer" "")

/-- Lines 117-132: rationale extraction and the final emit/skip decision
of the tabular parser, shared by both answer branches. -/
def finishCsv (idx : Nat) (row : RowMap) (question_text : String) (is_sata : Bool)
    (letters choices correct_set : List String) : Except PyExn RowOutcome :=
  match buildRationales row letters with
  | .error e => .error e
  | .ok rationales_map =>
    let search_term := _clean_text (rowGetD row "youtube_search_term" "")
    if question_text ≠ "" ∧ choices ≠ [] ∧ correct_set ≠ [] then
      .ok (.emit
        { q := question_text
          type := if is_sata then "sata" else "mcq"
          choices := choices
          correct_set := correct_set
          rationales := rationales_map
          search_term := search_term })
    else
      .ok (.skip ("Row " ++ toString idx ++
        ": Missing question_text, choices, or correct answers"))

/-- Lines 82-132: validation and construction for one normalized row of
the tabular parser. -/
def processRow (idx : Nat) (row : RowMap) : Except PyExn RowOutcome :=
  let question_text := rowQuestionText row
  if question_text = "" then
    .ok (.skip ("Row " ++ toString idx ++ ": Missing question text"))
  else
    let is_sata := rowIsSata row
    match buildOptions row all_letters with
    | .error e => .error e
    | .ok options =>
      let letters := options.map Prod.fst
      let choices := options.map (fun p => p.1 ++ ". " ++ p.2)
      if letters.length < rowMinOptions row then
        .ok (.skip (insufficientMsg idx (rowQtRaw row) (rowMinOptions row) letters.length))
      else
        let ca_multi := rowCaMulti row
        let ca_single := rowCaSingle row
        if is_sata ∧ ca_multi ≠ "" then
          finishCsv idx row question_text is_sata letters choices
            (multiCorrectSet letters ca_multi)
        else if ca_single ≠ "" then
          let ca := pyUpper ca_single
          if letters.contains ca then
            finishCsv idx row question_text is_sata letters choices [ca]
          else .ok (.skip (invalidSingleMsg idx ca_single letters))
        else
          .ok (.skip ("Row " ++ toString idx ++
            ": No valid correct_answer or correct_answers"))

/-- The loop of line 81: process the normalized rows in order,
accumulating accepted questions and skip reasons; a raised exception
aborts the whole parse. -/
def processRows (idx : Nat) : List RowMap → Except PyExn (List Question × List String)
  | [] => .ok ([], [])
  | r :: rest =>
    match processRow idx r with
    | .error e => .error e
    | .ok out =>
      match processRows (idx + 1) rest with
      | .error e => .error e
      | .ok (qs, skips) =>
        match out with
        | .emit q => .ok (q :: qs, skips)
        | .skip m => .ok (qs, m :: skips)

/-- Lines 66-73: drop blank rows, collect a message for each row shorter
than the header, and zip the surviving rows against the header names. -/
def buildNormRows (header : List String) : Nat → List (List String) →
    List RowMap × List String
  | _, [] => ([], [])
  | idx, row :: rest =>
    let (nr, inc) := buildNormRows header (idx + 1) rest
    if ¬ row.any (fun c => pyStrip c ≠ "") then (nr, inc)
    else if row.length < header.length then
      (nr, ("Row " ++ toString idx ++ ": Incomplete row, only " ++
        toString row.length ++ " columns") :: inc)
    else ((header.zip (row.take header.length)) :: nr, inc)

/-- Line 60: `h.strip().lower().lstrip("﻿")`. -/
def normHeaderField (h : String) : String :=
  ⟨(pyLower (pyStrip h)).data.dropWhile (· = '﻿')⟩

/-- The four field names line 61 requires in the header. -/
def requiredFields : List String :=
  ["question_type", "question", "correct_answer", "correct_answers"]

/-- Lines 134-139: the aggregate diagnostic message. -/
def assembleMsg (parsed : List Question) (incomplete skipped : List String) : String :=
  let m0 := if parsed.isEmpty then "No valid questions parsed." else "Parsed successfully"
  let m1 :=
    if incomplete.isEmpty then m0
    else m0 ++ "\nIncomplete rows detected: " ++ String.intercalate "; " incomplete
  if skipped.isEmpty then m1
  else m1 ++ "\nSkipped rows: " ++ String.intercalate "; " skipped

/-- The cleaned text the tabular parser works on: `strip`, the
`.replace` chain, and the fenced-block extraction (lines 28-39). -/
def csvClean (s : String) : List Char := applyFence (cleanRaw s.data)

/-- Lines 22-139: `parse_questions_from_csv`.  `Except.error` models a
raised exception, `Except.ok (questions, message)` the normal return. -/
def parse_questions_from_csv (output_text : String) :
    Except PyExn (List Question × String) :=
  if pyStrip output_text = "" then .ok ([], "Empty input text.")
  else
    let lines := pySplitlines (csvClean output_text)
    match findHeaderTail lines with
    | none => .ok ([], "No valid CSV header found.")
    | some tailLines =>
      match csvReader (joinLines tailLines) with
      | .error e => .ok ([], "CSV parsing error: " ++ e)
      | .ok [] => .ok ([], "No rows in CSV.")
      | .ok (hdr :: dataRows) =>
        let header_lower := hdr.map normHeaderField
        if ¬ requiredFields.all (header_lower.contains ·) then
          .ok ([], "Incomplete or mismatched CSV header.")
        else
          let (norm_rows, incomplete_rows) := buildNormRows header_lower 1 dataRows
          match processRows 1 norm_rows with
          | .error e => .error e
          | .ok (parsed, skipped) =>
            .ok (parsed, assembleMsg parsed incomplete_rows skipped)

/-- The full 17-column header of the expected tabular format (line 42). -/
def fullHeader : String :=
  "question_type,question,option_a,option_b,option_c,option_d,option_e,option_f," ++
  "correct_answer,correct_answers,rationale_a,rationale_b,rationale_c,rationale_d," ++
  "rationale_e,rationale_f,youtube_search_term"

/-- JSON structural whitespace (`json.loads` skips only these four). -/
def jsonSkipWs (cs : List Char) : List Char :=
  cs.dropWhile (fun c => c = ' ' ∨ c = '\t' ∨ c = '\n' ∨ c = '\r')

/-- The value of an ASCII hexadecimal digit. -/
def hexVal (c : Char) : Option Nat :=
  if '0' ≤ c ∧ c ≤ '9' then some (c.toNat - 48)
  else if 'a' ≤ c ∧ c ≤ 'f' then some (c.toNat - 87)
  else if 'A' ≤ c ∧ c ≤ 'F' then some (c.toNat - 55)
  else none

/-- Combine four hex digits. -/
def hex4 (a b c d : Char) : Option Nat :=
  match hexVal a, hexVal b, hexVal c, hexVal d with
  | some x, some y, some z, some w => some (((x * 16 + y) * 16 + z) * 16 + w)
  | _, _, _, _ => none

/-- Match an exact literal at the head of the input. -/
def eatExact : List Char → List Char → Option (List Char)
  | [], cs => some cs
  | _ :: _, [] => none
  | p :: ps, c :: cs => if c = p then eatExact ps cs else none

/-- Parse a JSON string body after the opening quote (strict mode: raw
control characters are rejected, escapes are the RFC set plus `\uXXXX`
with surrogate pairs; an unpaired surrogate, which Lean characters cannot
carry, becomes U+FFFD).  Fuelled by the remaining length. -/
def jsonStrParse : Nat → List Char → List Char → Option (String × List Char)
  | 0, _, _ => none
  | _ + 1, [], _ => none
  | f + 1, c :: rest, acc =>
    if c = '"' then some (⟨acc.reverse⟩, rest)
    else if c = '\\' then
      match rest with
      | [] => none
      | e :: rest2 =>
        if e = '"' ∨ e = '\\' ∨ e = '/' then jsonStrParse f rest2 (e :: acc)
        else if e = 'b' then jsonStrParse f rest2 ('\x08' :: acc)
        else if e = 'f' then jsonStrParse f rest2 ('\x0c' :: acc)
        else if e = 'n' then jsonStrParse f rest2 ('\n' :: acc)
        else if e = 'r' then jsonStrParse f rest2 ('\r' :: acc)
        else if e = 't' then jsonStrParse f rest2 ('\t' :: acc)
        else if e = 'u' then
          match rest2 with
          | h1 :: h2 :: h3 :: h4 :: rest3 =>
            match hex4 h1 h2 h3 h4 with
            | none => none
            | some n =>
              if 0xd800 ≤ n ∧ n ≤ 0xdbff then
                match rest3 with
                | '\\' :: 'u' :: g1 :: g2 :: g3 :: g4 :: rest4 =>
                  match hex4 g1 g2 g3 g4 with
                  | some m =>
                    if 0xdc00 ≤ m ∧ m ≤ 0xdfff then
                      jsonStrParse f rest4
                        (Char.ofNat (0x10000 + (n - 0xd800) * 0x400 + (m - 0xdc00)) :: acc)
                    else jsonStrParse f rest3 ('�' :: acc)
                  | none => jsonStrParse f rest3 ('�' :: acc)
                | _ => jsonStrParse f rest3 ('�' :: acc)
              else if 0xdc00 ≤ n ∧ n ≤ 0xdfff then jsonStrParse f rest3 ('�' :: acc)
              else jsonStrParse f rest3 (Char.ofNat n :: acc)
          | _ => none
        else none
    else if c.toNat < 0x20 then none
    else jsonStrParse f rest (c :: acc)

/-- Parse a JSON number, returning its source text. -/
def jsonNum (cs : List Char) : Option (String × List Char) :=
  let (sign, cs1) : List Char × List Char :=
    match cs with
    | '-' :: r => (['-'], r)
    | _ => ([], cs)
  match cs1 with
  | [] => none
  | c :: rest =>
    let ipart : Option (List Char × List Char) :=
      if c = '0' then some (['0'], rest)
      else if c.isDigit then
        let (ds, r) := rest.span Char.isDigit
        some (c :: ds, r)
      else none
    match ipart with
    | none => none
    | some (ip, r1) =>
      let fpart : Option (List Char × List Char) :=
        match r1 with
        | '.' :: r2 =>
          let (ds, r3) := r2.span Char.isDigit
          if ds.isEmpty then none else some ('.' :: ds, r3)
        | _ => some ([], r1)
      match fpart with
      | none => none
      | some (fp, r4) =>
        let epart : Option (List Char × List Char) :=
          match r4 with
          | e :: r5 =>
            if e = 'e' ∨ e = 'E' then
              let (sgn, r6) : List Char × List Char :=
                match r5 with
                | s :: r6 => if s = '+' ∨ s = '-' then ([s], r6) else ([], r5)
                | [] => ([], r5)
              let (ds, r7) := r6.span Char.isDigit
              if ds.isEmpty then none else some (e :: (sgn ++ ds), r7)
            else some ([], r4)
          | [] => some ([], r4)
        match epart with
        | none => none
        | some (ep, r8) => some (⟨sign ++ ip ++ fp ++ ep⟩, r8)

/-- The opening brace of a JSON object. -/
def obC : Char := Char.ofNat 123

/-- The closing brace of a JSON object. -/
def cbC : Char := Char.ofNat 125

/-- Parse the members of an object after its opening brace (whitespace
already skipped), given a parser for values. -/
def jsonObjLoop (pv : List Char → Option (Json × List Char)) :
    Nat → List Char → JsonFields → Bool → Option (JsonFields × List Char)
  | 0, _, _, _ => none
  | _ + 1, [], _, _ => none
  | f + 1, c :: rest, acc, first =>
    if first ∧ c = cbC then some (acc, rest)
    else if c = '"' then
      match jsonStrParse (rest.length + 1) rest [] with
      | none => none
      | some (k, r1) =>
        match jsonSkipWs r1 with
        | ':' :: r2 =>
          match pv (jsonSkipWs r2) with
          | none => none
          | some (v, r3) =>
            match jsonSkipWs r3 with
            | ',' :: r4 => jsonObjLoop pv f (jsonSkipWs r4) (acc.insert k v) false
            | d :: r4 => if d = cbC then some (acc.insert k v, r4) else none
            | [] => none
        | _ => none
    else none

/-- Parse the elements of an array after its opening bracket (whitespace
already skipped), given a parser for values. -/
def jsonArrLoop (pv : List Char → Option (Json × List Char)) :
    Nat → List Char → List Json → Bool → Option (List Json × List Char)
  | 0, _, _, _ => none
  | _ + 1, [], _, _ => none
  | f + 1, c :: rest, acc, first =>
    if first ∧ c = ']' then some (acc.reverse, rest)
    else
      match pv (c :: rest) with
      | none => none
      | some (v, r1) =>
        match jsonSkipWs r1 with
        | ',' :: r2 => jsonArrLoop pv f (jsonSkipWs r2) (v :: acc) false
        | ']' :: r2 => some ((v :: acc).reverse, r2)
        | _ => none

/-- Build a `JsonList` from a meta-level list. -/
def JsonList.ofList : List Json → JsonList
  | [] => .nil
  | j :: js => .cons j (JsonList.ofList js)

/-- Parse one JSON value (no leading whitespace), fuelled by the input
length.  Accepts the Python extensions `NaN`, `Infinity`, `-Infinity`. -/
def jsonParseVal : Nat → List Char → Option (Json × List Char)
  | 0, _ => none
  | _ + 1, [] => none
  | f + 1, c :: rest =>
    if c = '"' then (jsonStrParse (rest.length + 1) rest []).map (fun p => (.str p.1, p.2))
    else if c = obC then
      (jsonObjLoop (jsonParseVal f) (f + 1) (jsonSkipWs rest) .nil true).map
        (fun p => (.obj p.1, p.2))
    else if c = '[' then
      (jsonArrLoop (jsonParseVal f) (f + 1) (jsonSkipWs rest) [] true).map
        (fun p => (.arr (JsonList.ofList p.1), p.2))
    else if c = 't' then (eatExact "rue".data rest).map (fun r => (.bool true, r))
    else if c = 'f' then (eatExact "alse".data rest).map (fun r => (.bool false, r))
    else if c = 'n' then (eatExact "ull".data rest).map (fun r => (.null, r))
    else if c = 'N' then (eatExact "aN".data rest).map (fun r => (.num "NaN", r))
    else if c = 'I' then (eatExact "nfinity".data rest).map (fun r => (.num "Infinity", r))
    else if c = '-' then
      match rest with
      | 'I' :: r2 => (eatExact "nfinity".data r2).map (fun r => (.num "-Infinity", r))
      | _ => (jsonNum (c :: rest)).map (fun p => (.num p.1, p.2))
    else (jsonNum (c :: rest)).map (fun p => (.num p.1, p.2))

/-- `json.loads` on a character list: parse one document with surrounding
whitespace; `none` models a raised `json.JSONDecodeError`. -/
def json_loads (cs : List Char) : Option Json :=
  let cs1 := jsonSkipWs cs
  match jsonParseVal (cs1.length + 1) cs1 with
  | some (v, rest) => if (jsonSkipWs rest).isEmpty then some v else none
  | none => none

/-- The single-quote character. -/
def sqC : Char := Char.ofNat 39

/-- One hexadecimal digit character (lower case). -/
def hexDigitChar (n : Nat) : Char :=
  if n < 10 then Char.ofNat (48 + n) else Char.ofNat (87 + n)

/-- One character of a Python string `repr`, for quote character `qc`. -/
def escChar (qc c : Char) : List Char :=
  if c = '\\' then ['\\', '\\']
  else if c = qc then ['\\', qc]
  else if c = '\n' then ['\\', 'n']
  else if c = '\r' then ['\\', 'r']
  else if c = '\t' then ['\\', 't']
  else if c.toNat < 0x20 ∨ c.toNat = 0x7f then
    ['\\', 'x', hexDigitChar (c.toNat / 16), hexDigitChar (c.toNat % 16)]
  else [c]

/-- Python `repr` of a string: single-quoted unless the text holds a
single quote but no double quote. -/
def pyReprStr (s : String) : String :=
  let qc : Char := if s.data.contains sqC ∧ ¬ s.data.contains '"' then '"' else sqC
  String.singleton qc ++ ⟨(s.data.map (escChar qc)).flatten⟩ ++ String.singleton qc

/-- Python `str`/`repr` of a decoded number (kept as source text; the
non-finite extensions print as Python floats do). -/
def pyNumStr (raw : String) : String :=
  if raw = "NaN" then "nan"
  else if raw = "Infinity" then "inf"
  else if raw = "-Infinity" then "-inf"
  else raw

mutual
/-- Python `repr` of a decoded JSON value. -/
def pyRepr : Json → String
  | .null => "None"
  | .bool true => "True"
  | .bool false => "False"
  | .num raw => pyNumStr raw
  | .str s => pyReprStr s
  | .arr es => "[" ++ String.intercalate ", " (pyReprList es) ++ "]"
  | .obj fs => "\x7b" ++ String.intercalate ", " (pyReprFields fs) ++ "\x7d"
/-- `repr` of the elements of a decoded array. -/
def pyReprList : JsonList → List String
  | .nil => []
  | .cons j js => pyRepr j :: pyReprList js
/-- `repr` of the fields of a decoded object. -/
def pyReprFields : JsonFields → List String
  | .nil => []
  | .cons k v fs => (pyReprStr k ++ ": " ++ pyRepr v) :: pyReprFields fs
end

/-- Python `str()` of a decoded JSON value, as an f-string interpolates it. -/
def pyStr : Json → String
  | .str s => s
  | j => pyRepr j

/-- Whether the needle list occurs at the head of the hay list. -/
def listStartsWith : List Char → List Char → Bool
  | [], _ => true
  | _ :: _, [] => false
  | n :: ns, h :: hs => n = h ∧ listStartsWith ns hs

/-- Python substring containment `needle in hay`. -/
def strContainsAux (needle : List Char) : List Char → Bool
  | [] => needle.isEmpty
  | h :: hs => listStartsWith needle (h :: hs) ∨ strContainsAux needle hs

/-- Python `x in j` for a string `x`: key membership on a dict, element
equality on a list, substring on a string, `TypeError` otherwise. -/
def pyContains (needle : String) : Json → Except PyExn Bool
  | .obj fs => .ok (fs.hasKey needle)
  | .arr es =>
    .ok (es.toList.any (fun x => match x with | .str t => t = needle | _ => false))
  | .str s => .ok (strContainsAux needle.data s.data)
  | _ => .error .typeError

/-- Python iteration over a decoded JSON value: list elements, string
characters, or dict keys; `TypeError` otherwise. -/
def pyIter : Json → Except PyExn (List Json)
  | .arr es => .ok es.toList
  | .str s => .ok (s.data.map (fun c => .str (String.singleton c)))
  | .obj fs => .ok (fs.keys.map Json.str)
  | _ => .error .typeError

/-- Extract a Python `str`; calling a string method on any other value
raises `AttributeError`. -/
def asStr : Json → Except PyExn String
  | .str s => .ok s
  | _ => .error .attributeError

/-- `q.get(k, d)` on a decoded object. -/
def jGetD (q : JsonFields) (k : String) (d : Json) : Json := (q.get k).getD d

/-- Line 167: `[L for L in all_letters if L in options]` — membership may
raise `TypeError` when `options` decodes to a number, boolean or null. -/
def lettersOf (options : Json) : List String → Except PyExn (List String)
  | [] => .ok []
  | L :: Ls =>
    match pyContains L options with
    | .error e => .error e
    | .ok b =>
      match lettersOf options Ls with
      | .error e => .error e
      | .ok rest => .ok (if b then L :: rest else rest)

/-- `options[L]`: value lookup on a dict; a list or string raises
`TypeError` for a string index. -/
def jsonOptIndex (options : Json) (L : String) : Except PyExn Json :=
  match options with
  | .obj fs => .ok ((fs.get L).getD .null)
  | _ => .error .typeError

/-- Line 168: `[f"{L}. {options[L]}" for L in letters]`. -/
def choicesOf (options : Json) : List String → Except PyExn (List String)
  | [] => .ok []
  | L :: Ls =>
    match jsonOptIndex options L with
    | .error e => .error e
    | .ok v =>
      match choicesOf options Ls with
      | .error e => .error e
      | .ok rest => .ok ((L ++ ". " ++ pyStr v) :: rest)

/-- Lines 176-179: fold the `correct_answers` items into the sorted
answer set; every item must be a string (`.strip()` on anything else
raises `AttributeError`). -/
def multiFromItems (letters : List String) : List Json → List String →
    Except PyExn (List String)
  | [], acc => .ok acc
  | j :: js, acc =>
    match j with
    | .str a =>
      let t := pyUpper (pyStrip a)
      multiFromItems letters js (if letters.contains t then setInsert t acc else acc)
    | _ => .error .attributeError

/-- Replace the value at a present key of an association list (Python
dict assignment; an absent key would be appended). -/
def assocSet (k : String) (v : Json) : List (String × Json) → List (String × Json)
  | [] => [(k, v)]
  | (k2, v2) :: rest =>
    if k2 = k then (k2, v) :: rest else (k2, v2) :: assocSet k v rest

/-- Lines 191-205: rationale map, the `rationales["correct"]` override for
single-answer questions, and the final emit/skip decision. -/
def finishJson (idx : Nat) (qf : JsonFields) (question_text : String)
    (is_sata : Bool) (choices : List String) (cset letters : List String) :
    Except PyExn RowOutcome :=
  match jGetD qf "rationales" (.obj .nil) with
  | .obj rf =>
    let rationales_map := letters.map (fun L => (L, (rf.get L).getD (.str "")))
    let rationales_map2 :=
      if rf.hasKey "correct" ∧ cset.length = 1 then
        match cset with
        | c0 :: _ => assocSet c0 ((rf.get "correct").getD (.str "")) rationales_map
        | [] => rationales_map
      else rationales_map
    if question_text ≠ "" ∧ choices ≠ [] ∧ cset ≠ [] then
      match asStr (jGetD qf "search_term" (.str "")) with
      | .error e => .error e
      | .ok st0 =>
        .ok (.emit
          { q := question_text
            type := if is_sata then "sata" else "mcq"
            choices := choices
            correct_set := cset
            rationales := rationales_map2
            search_term := pyStrip st0 })
    else
      .ok (.skip ("Question " ++ toString idx ++
        ": Missing question_text, choices, or correct answers"))
  | _ => .error .attributeError

/-- Line 165: the nested-path cardinality classification — a synonym type
token, or a `correct_answers` field decoded as a list. -/
def jsonIsSataOf (qf : JsonFields) (qt_raw : String) : Bool :=
  sataSynonyms.contains qt_raw ||
    (match qf.get "correct_answers" with | some (.arr _) => true | _ => false)

/-- The skip message of line 171. -/
def jsonInsufficientMsg (idx : Nat) (qt_raw : String) (minOptions found : Nat) : String :=
  "Question " ++ toString idx ++ ": " ++ pyUpper qt_raw ++ " requires " ++
    toString minOptions ++ " options, found " ++ toString found

/-- Lines 162-205: validation and construction for one element of the
`questions` collection of the nested format. -/
def processJsonQ (idx : Nat) (q : Json) : Except PyExn RowOutcome :=
  match q with
  | .obj qf =>
    match asStr (jGetD qf "question_text" (.str "")) with
    | .error e => .error e
    | .ok qt0 =>
      let question_text := pyStrip qt0
      let options := jGetD qf "options" (.obj .nil)
      match asStr (jGetD qf "question_type" (.str "")) with
      | .error e => .error e
      | .ok ty0 =>
        let qt_raw := pyLower ty0
        let is_sata := jsonIsSataOf qf qt_raw
        match lettersOf options all_letters with
        | .error e => .error e
        | .ok letters =>
          match choicesOf options letters with
          | .error e => .error e
          | .ok choices =>
            let min_options := if is_sata then 6 else 4
            if letters.length < min_options then
              .ok (.skip (jsonInsufficientMsg idx qt_raw min_options letters.length))
            else if is_sata then
              match pyIter (jGetD qf "correct_answers" (.arr .nil)) with
              | .error e => .error e
              | .ok items =>
                match multiFromItems letters items [] with
                | .error e => .error e
                | .ok cset =>
                  if cset.isEmpty then
                    .ok (.skip ("Question " ++ toString idx ++ ": No valid correct_answers"))
                  else finishJson idx qf question_text is_sata choices cset letters
            else
              match asStr (jGetD qf "correct_answer" (.str "")) with
              | .error e => .error e
              | .ok ca0 =>
                let ca := pyUpper ca0
                if letters.contains ca then
                  finishJson idx qf question_text is_sata choices [ca] letters
                else
                  .ok (.skip ("Question " ++ toString idx ++
                    ": Invalid correct_answer " ++ sq ++ ca ++ sq))
  | _ => .error .attributeError

/-- The loop of line 161 over the `questions` collection. -/
def processJsonQs (idx : Nat) : List Json → Except PyExn (List Question × List String)
  | [] => .ok ([], [])
  | j :: rest =>
    match processJsonQ idx j with
    | .error e => .error e
    | .ok out =>
      match processJsonQs (idx + 1) rest with
      | .error e => .error e
      | .ok (qs, skips) =>
        match out with
        | .emit q => .ok (q :: qs, skips)
        | .skip m => .ok (qs, m :: skips)

/-- Lines 207-209: the aggregate message of the nested path. -/
def jsonAssembleMsg (parsed : List Question) (skipped : List String) : String :=
  let m0 :=
    if parsed.isEmpty then "No valid questions parsed from JSON." else "Parsed successfully"
  if skipped.isEmpty then m0
  else m0 ++ "\nSkipped questions: " ++ String.intercalate "; " skipped

/-- Lines 149-212: the nested-JSON branch of `parse_questions`, entered
when the tabular parse accepted nothing. -/
def jsonFallback (output_text : String) : Except PyExn (List Question × String) :=
  let txt := applyFence (pyStripL output_text.data)
  match json_loads txt with
  | none => .ok ([], "Invalid JSON format.")
  | some data =>
    match data with
    | .obj df =>
      if df.hasKey "questions" then
        match pyIter (jGetD df "questions" (.arr .nil)) with
        | .error e => .error e
        | .ok items =>
          match processJsonQs 1 items with
          | .error e => .error e
          | .ok (parsed, skipped) => .ok (parsed, jsonAssembleMsg parsed skipped)
      else .ok ([], "JSON does not contain " ++ sq ++ "questions" ++ sq ++ " list.")
    | _ => .ok ([], "JSON does not contain " ++ sq ++ "questions" ++ sq ++ " list.")

/-- Lines 141-212: `parse_questions`, the dispatcher — the tabular parse
result is returned if it accepted at least one question, otherwise the
nested-JSON parse is attempted on the raw text. -/
def parse_questions (output_text : String) : Except PyExn (List Question × String) :=
  match parse_questions_from_csv output_text with
  | .error e => .error e
  | .ok (parsed, error_msg) =>
    if parsed.isEmpty then jsonFallback output_text else .ok (parsed, error_msg)

/-- A raw text that the tabular parser accepts nothing from and that is a
valid nested-JSON document with exactly one valid question object. -/
def jsonOneInput : String :=
  "\x7b\"questions\": [\x7b\"question_text\": \"JQ?\", \"question_type\": \"mcq\", " ++
  "\"options\": \x7b\"A\": \"oa\", \"B\": \"ob\", \"C\": \"oc\", \"D\": \"od\"\x7d, " ++
  "\"correct_answer\": \"a\", \"rationales\": \x7b\"A\": \"ra\"\x7d, " ++
  "\"search_term\": \"jt\"\x7d]\x7d"

/-- The question the nested path builds from `jsonOneInput`. -/
def jsonOneQuestion : Question :=
  { q := "JQ?", type := "mcq",
    choices := ["A. oa", "B. ob", "C. oc", "D. od"],
    correct_set := ["A"],
    rationales := [("A", .str "ra"), ("B", .str ""), ("C", .str ""), ("D", .str "")],
    search_term := "jt" }

/-- A preamble line, the full header, and one complete multiple-choice
data row with four options. -/
def csvPreambleInput : String :=
  "Some preamble text\n" ++ fullHeader ++
  "\nmcq,\"Q1?\",\"o1\",\"o2\",\"o3\",\"o4\",,,A,,\"r1\",\"r2\",\"r3\",\"r4\",,,\"yt\""

/-- The question the tabular parser builds from `csvPreambleInput`. -/
def csvPreambleQuestion : Question :=
  { q := "Q1?", type := "mcq",
    choices := ["A. o1", "B. o2", "C. o3", "D. o4"],
    correct_set := ["A"],
    rationales := [("A", .str "r1"), ("B", .str "r2"), ("C", .str "r3"), ("D", .str "r4")],
    search_term := "yt" }

/-- The end-to-end scenario input of the spec: the full header and the
data row `mcq,"Pick one","a","b",,,,,A,,,,,,,,"term"` with only two
populated options. -/
def c7Input : String :=
  fullHeader ++ "\nmcq,\"Pick one\",\"a\",\"b\",,,,,A,,,,,,,,\"term\""

/-- A select-all-that-apply row with only three populated options and a
non-empty multi-answer field. -/
def sata3Input : String :=
  fullHeader ++ "\nsata,\"S?\",\"o1\",\"o2\",\"o3\",,,,,\"A;C\",,,,,,,\"yt\""

/-- A select-all-that-apply row with six options whose multi-answer field
is `A;C;Z`, naming one letter (`Z`) that is not offered. -/
def c5MultiInput : String :=
  fullHeader ++
  "\nSATA,\"Choose\",\"o1\",\"o2\",\"o3\",\"o4\",\"o5\",\"o6\",,\"A;C;Z\",\"ra\",\"rb\",\"rc\",\"rd\",\"re\",\"rf\",\"yt\""

/-- The question the tabular parser builds from `c5MultiInput`: the
unknown token `Z` is silently dropped. -/
def c5MultiQuestion : Question :=
  { q := "Choose", type := "sata",
    choices := ["A. o1", "B. o2", "C. o3", "D. o4", "E. o5", "F. o6"],
    correct_set := ["A", "C"],
    rationales := [("A", .str "ra"), ("B", .str "rb"), ("C", .str "rc"),
                   ("D", .str "rd"), ("E", .str "re"), ("F", .str "rf")],
    search_term := "yt" }

/-- A normalized single-answer row whose `correct_answer` (`Z`) is not an
offered letter. -/
def c5SingleRow : RowMap :=
  [("question_type", "mcq"), ("question", "Q?"),
   ("option_a", "w"), ("option_b", "x"), ("option_c", "y"), ("option_d", "z"),
   ("option_e", ""), ("option_f", ""),
   ("correct_answer", "Z"), ("correct_answers", "")]

/-- A header that passes the required-field check but lacks every
`option_<letter>` column, followed by one data row; field lookups on the
row then find no value. -/
def c1BugInput : String :=
  "question_type,question,correct_answer,correct_answers\nmcq,Q,A,"

/-- A header carrying `a_rationale` in place of `rationale_a`, as in the
spec's rationale-fallback scenario, with one otherwise valid data row. -/
def c6CexInput : String :=
  "question_type,question,option_a,option_b,option_c,option_d,option_e,option_f," ++
  "correct_answer,correct_answers,a_rationale,rationale_b,rationale_c,rationale_d," ++
  "rationale_e,rationale_f,youtube_search_term" ++
  "\nmcq,\"Q?\",\"o1\",\"o2\",\"o3\",\"o4\",,,A,,\"x\",\"rb\",\"rc\",\"rd\",,,\"yt\""

/-- The full header extended with a trailing `a_rationale` column; the data
row leaves `rationale_a` empty while `a_rationale` holds `x`. -/
def c6AmInput : String :=
  fullHeader ++ ",a_rationale" ++
  "\nmcq,\"Q?\",\"o1\",\"o2\",\"o3\",\"o4\",,,A,,,\"rb\",\"rc\",\"rd\",,,\"yt\",\"x\""

/-- The question the tabular parser builds from `c6AmInput`: the rationale
for `A` is the empty `rationale_a` value, not the `a_rationale` text. -/
def c6AmQuestion : Question :=
  { q := "Q?", type := "mcq",
    choices := ["A. o1", "B. o2", "C. o3", "D. o4"],
    correct_set := ["A"],
    rationales := [("A", .str ""), ("B", .str "rb"), ("C", .str "rc"), ("D", .str "rd")],
    search_term := "yt" }

/-- A reordered header (answers before options, no trailing columns)
that the code accepts although it does not match the expected header's
field names in order. -/
def c8Input : String :=
  "question_type,question,correct_answer,correct_answers,option_a,option_b," ++
  "option_c,option_d,option_e,option_f,rationale_a,rationale_b,rationale_c,rationale_d" ++
  "\nmcq,Q,A,,w,x,y,z,,,ra,rb,rc,rd"

/-- Text with no header-like line at all. -/
def c8NoHeaderInput : String := "hello there"

/-- A normalized single-answer row with four options whose
`correct_answer` is empty (the `correct_answers` value is ignored on the
single-answer path). -/
def c5EmptyCaRow : RowMap :=
  [("question_type", "mcq"), ("question", "Q?"),
   ("option_a", "w"), ("option_b", "x"), ("option_c", "y"), ("option_d", "z"),
   ("option_e", ""), ("option_f", ""),
   ("correct_answer", ""), ("correct_answers", "A;B")]

/-- A normalized multi-answer row with only three populated options. -/
def sata3Row : RowMap :=
  [("question_type", "sata"), ("question", "S?"),
   ("option_a", "o1"), ("option_b", "o2"), ("option_c", "o3"),
   ("option_d", ""), ("option_e", ""), ("option_f", ""),
   ("correct_answer", ""), ("correct_answers", "A;C")]

/-- A normalized select-all-that-apply row with six options, an empty
`correct_answers` field and a valid single `correct_answer`. -/
def c10Row : RowMap :=
  [("question_type", "sata"), ("question", "S?"),
   ("option_a", "o1"), ("option_b", "o2"), ("option_c", "o3"),
   ("option_d", "o4"), ("option_e", "o5"), ("option_f", "o6"),
   ("correct_answer", "b"), ("correct_answers", ""),
   ("rationale_a", "r1"), ("rationale_b", "r2"), ("rationale_c", "r3"),
   ("rationale_d", "r4"), ("rationale_e", "r5"), ("rationale_f", "r6"),
   ("youtube_search_term", "yt")]

/-- The field names of the expected tabular header, in order. -/
def specHeaderFields : List String :=
  ["question_type", "question", "option_a", "option_b", "option_c", "option_d",
   "option_e", "option_f", "correct_answer", "correct_answers", "rationale_a",
   "rationale_b", "rationale_c", "rationale_d", "rationale_e", "rationale_f",
   "youtube_search_term"]

/-- Match a comma-separated run of the given field names, each with
optional surrounding whitespace, case-insensitively. -/
def eatFieldsCI : List String → List Char → Option (List Char)
  | [], cs => some cs
  | f :: fs, cs =>
    match eatCI f.data (cs.dropWhile isPySpace) with
    | none => none
    | some rest =>
      match fs with
      | [] => some rest
      | _ :: _ =>
        match rest.dropWhile isPySpace with
        | ',' :: r => eatFieldsCI fs r
        | _ => none

/-- Stated from the spec's words for comparison with the code: a line
"matching the expected header's field names in order", comma-separated
with optional surrounding whitespace, case-insensitively. -/
def specHeaderLineMatch (cs : List Char) : Bool :=
  match eatFieldsCI specHeaderFields cs with
  | some rest => (rest.dropWhile isPySpace).isEmpty
  | none => false

/-- The letter string a rendered choice `"A. text"` starts with. -/
def firstLetter (s : String) : Option String := s.data.head?.map String.singleton

/-- The option letters of an emitted question, reconstructed from the
leading character of each rendered choice. -/
def qLetters (q : Question) : List String := q.choices.filterMap firstLetter

/-- The invariants claimed for every emitted question: a non-empty answer
set drawn from the offered option letters, a singleton answer set for
multiple-choice questions, and a rationale entry for exactly the offered
letters. -/
def QInv (q : Question) : Prop :=
  q.correct_set ≠ [] ∧
  (∀ L ∈ q.correct_set, L ∈ qLetters q) ∧
  (q.type = "mcq" → q.correct_set.length = 1) ∧
  q.rationales.map Prod.fst = qLetters q

theorem firstLetter_append (c : Char) (L t : String) (h : L.data = [c]) :
    firstLetter (L ++ ". " ++ t) = some L := by
  have hd : (L ++ ". " ++ t).data = c :: '.' :: ' ' :: t.data := by
    rw [String.data_append, String.data_append, h]; rfl
  have hs : String.singleton c = L := by
    apply String.ext; simp [String.singleton, h]
  simp [firstLetter, hd, hs]

theorem mem_all_letters_data {L : String} (h : L ∈ all_letters) : ∃ c, L.data = [c] := by
  fin_cases h <;> exact ⟨_, rfl⟩

theorem choices_filterMap (opts : List (String × String))
    (h : ∀ p ∈ opts, ∃ c, (p.1).data = [c]) :
    (opts.map (fun p => p.1 ++ ". " ++ p.2)).filterMap firstLetter = opts.map Prod.fst := by
  induction opts with
  | nil => rfl
  | cons p ps ih =>
    obtain ⟨c, hc⟩ := h p (List.mem_cons_self _ _)
    simp only [List.map_cons, List.filterMap_cons, firstLetter_append c _ _ hc]
    rw [ih (fun q hq => h q (List.mem_cons_of_mem _ hq))]

theorem buildOptions_mem {row : RowMap} {ls : List String} {opts : List (String × String)}
    (h : buildOptions row ls = .ok opts) : ∀ p ∈ opts, p.1 ∈ ls := by
  induction ls generalizing opts with
  | nil =>
    simp only [buildOptions] at h
    cases h; simp
  | cons L Ls ih =>
    simp only [buildOptions] at h
    cases hv : cleanTextOpt (rowGet row ("option_" ++ pyLower L)) with
    | error e => rw [hv] at h; cases h
    | ok v =>
      rw [hv] at h
      cases hr : buildOptions row Ls with
      | error e => rw [hr] at h; cases h
      | ok rest =>
        rw [hr] at h
        cases h
        intro p hp
        by_cases hv0 : v = ""
        · simp only [hv0, if_pos rfl] at hp
          exact List.mem_cons_of_mem _ (ih hr p hp)
        · simp only [if_neg hv0] at hp
          rcases List.mem_cons.mp hp with h1 | h1
          · subst h1; exact List.mem_cons_self _ _
          · exact List.mem_cons_of_mem _ (ih hr p h1)

theorem buildRationales_eq {row : RowMap} {ls : List String} {rats : List (String × Json)}
    (h : buildRationales row ls = .ok rats) :
    rats = ls.map (fun L =>
      (L, Json.str (_clean_text ((rowGet row ("rationale_" ++ pyLower L)).getD "")))) := by
  induction ls generalizing rats with
  | nil => simp only [buildRationales] at h; cases h; rfl
  | cons L Ls ih =>
    simp only [buildRationales] at h
    cases hv : rowGet row ("rationale_" ++ pyLower L) with
    | none => rw [hv] at h; simp [cleanTextOpt] at h
    | some v =>
      rw [hv] at h
      simp only [cleanTextOpt] at h
      cases hr : buildRationales row Ls with
      | error e => rw [hr] at h; cases h
      | ok rest =>
        rw [hr] at h
        cases h
        simp [ih hr, hv]

theorem map_fst_pair_map (ls : List String) (g : String → Json) :
    (ls.map (fun L => (L, g L))).map Prod.fst = ls := by
  induction ls with
  | nil => rfl
  | cons L Ls ih => simp [ih]

theorem buildRationales_keys {row : RowMap} {ls : List String} {rats : List (String × Json)}
    (h : buildRationales row ls = .ok rats) : rats.map Prod.fst = ls := by
  rw [buildRationales_eq h]
  exact map_fst_pair_map ls _

theorem mem_setInsert {x y : String} {l : List String} :
    y ∈ setInsert x l ↔ y = x ∨ y ∈ l := by
  induction l with
  | nil => simp [setInsert]
  | cons z zs ih =>
    simp only [setInsert]
    split
    · next hz => subst hz; simp only [List.mem_cons]; tauto
    · split
      · simp only [List.mem_cons]
      · simp only [List.mem_cons, ih]; tauto

theorem mem_foldl_setInsert {letters : List String} {toks : List String} {acc : List String}
    (hacc : ∀ x ∈ acc, x ∈ letters) :
    ∀ x ∈ toks.foldl
      (fun acc t =>
        if letters.contains (pyUpper t) ∧ pyStrip t ≠ "" then setInsert (pyUpper t) acc
        else acc) acc, x ∈ letters := by
  induction toks generalizing acc with
  | nil => exact hacc
  | cons t ts ih =>
    simp only [List.foldl_cons]
    apply ih
    intro x hx
    split at hx
    · next hcond =>
      rcases mem_setInsert.mp hx with h1 | h1
      · subst h1; exact List.elem_iff.mp hcond.1
      · exact hacc x h1
    · exact hacc x hx

theorem multiCorrectSet_subset {letters : List String} {ca : String} :
    ∀ x ∈ multiCorrectSet letters ca, x ∈ letters := by
  unfold multiCorrectSet
  exact mem_foldl_setInsert (by simp)

theorem multiFromItems_subset {letters : List String} {js : List Json}
    {acc cset : List String} (h : multiFromItems letters js acc = .ok cset)
    (hacc : ∀ x ∈ acc, x ∈ letters) : ∀ x ∈ cset, x ∈ letters := by
  induction js generalizing acc with
  | nil => simp only [multiFromItems] at h; cases h; exact hacc
  | cons j js ih =>
    cases j with
    | str a =>
      simp only [multiFromItems] at h
      refine ih h ?_
      intro x hx
      split at hx
      · next hcond =>
        rcases mem_setInsert.mp hx with h1 | h1
        · subst h1; exact List.elem_iff.mp hcond
        · exact hacc x h1
      · exact hacc x hx
    | null => simp [multiFromItems] at h
    | bool b => simp [multiFromItems] at h
    | num raw => simp [multiFromItems] at h
    | arr es => simp [multiFromItems] at h
    | obj fs => simp [multiFromItems] at h

theorem lettersOf_mem {options : Json} {ls letters : List String}
    (h : lettersOf options ls = .ok letters) : ∀ L ∈ letters, L ∈ ls := by
  induction ls generalizing letters with
  | nil => simp only [lettersOf] at h; cases h; simp
  | cons L Ls ih =>
    simp only [lettersOf] at h
    cases hb : pyContains L options with
    | error e => rw [hb] at h; cases h
    | ok b =>
      rw [hb] at h
      cases hr : lettersOf options Ls with
      | error e => rw [hr] at h; cases h
      | ok rest =>
        rw [hr] at h
        cases h
        intro x hx
        by_cases hb0 : b = true
        · simp only [hb0, if_pos rfl] at hx
          rcases List.mem_cons.mp hx with h1 | h1
          · subst h1; exact List.mem_cons_self _ _
          · exact List.mem_cons_of_mem _ (ih hr x h1)
        · simp only [if_neg hb0] at hx
          exact List.mem_cons_of_mem _ (ih hr x hx)

theorem choicesOf_filterMap {options : Json} {ls cs : List String}
    (h : choicesOf options ls = .ok cs) (hl : ∀ L ∈ ls, ∃ c, L.data = [c]) :
    cs.filterMap firstLetter = ls := by
  induction ls generalizing cs with
  | nil => simp only [choicesOf] at h; cases h; rfl
  | cons L Ls ih =>
    simp only [choicesOf] at h
    cases hv : jsonOptIndex options L with
    | error e => rw [hv] at h; cases h
    | ok v =>
      rw [hv] at h
      cases hr : choicesOf options Ls with
      | error e => rw [hr] at h; cases h
      | ok rest =>
        rw [hr] at h
        cases h
        obtain ⟨c, hc⟩ := hl L (List.mem_cons_self _ _)
        simp only [List.filterMap_cons, firstLetter_append c _ _ hc]
        rw [ih hr (fun x hx => hl x (List.mem_cons_of_mem _ hx))]

theorem assocSet_keys {k : String} {v : Json} {l : List (String × Json)}
    (h : k ∈ l.map Prod.fst) : (assocSet k v l).map Prod.fst = l.map Prod.fst := by
  induction l with
  | nil => simp at h
  | cons p ps ih =>
    simp only [assocSet]
    split
    · next he => simp [he]
    · next he =>
      simp only [List.map_cons] at h ⊢
      rcases List.mem_cons.mp h with h1 | h1
      · exact absurd h1.symm he
      · rw [ih h1]

theorem finishCsv_inv {idx : Nat} {row : RowMap} {question_text : String}
    {is_sata : Bool} {letters choices cset : List String} {q : Question}
    (hch : choices.filterMap firstLetter = letters)
    (hsub : ∀ x ∈ cset, x ∈ letters)
    (hlen : is_sata = false → cset.length = 1)
    (h : finishCsv idx row question_text is_sata letters choices cset = .ok (.emit q)) :
    QInv q := by
  unfold finishCsv at h
  cases hr : buildRationales row letters with
  | error e => rw [hr] at h; cases h
  | ok rats =>
    rw [hr] at h
    simp only at h
    split at h
    · next hcond =>
      cases h
      refine ⟨hcond.2.2, ?_, ?_, ?_⟩
      · intro L hL
        simp only [qLetters, hch]
        exact hsub L hL
      · intro hty
        simp only at hty
        cases hs : is_sata with
        | false => exact hlen hs
        | true => rw [hs] at hty; simp at hty
      · simp only [qLetters, hch]
        exact buildRationales_keys hr
    · cases h

theorem processRow_inv {idx : Nat} {row : RowMap} {q : Question}
    (h : processRow idx row = .ok (.emit q)) : QInv q := by
  unfold processRow at h
  dsimp only at h
  split at h
  · simp at h
  · cases hopts : buildOptions row all_letters with
    | error e => rw [hopts] at h; simp at h
    | ok options =>
      rw [hopts] at h
      dsimp only at h
      have hsing : ∀ p ∈ options, ∃ c, (p.1).data = [c] :=
        fun p hp => mem_all_letters_data (buildOptions_mem hopts p hp)
      have hch := choices_filterMap options hsing
      split at h
      · simp at h
      · split at h
        · next hc =>
          exact finishCsv_inv hch multiCorrectSet_subset
            (fun hf => absurd hc.1 (by simp [hf])) h
        · split at h
          · split at h
            · next hel =>
              refine finishCsv_inv hch ?_ ?_ h
              · intro x hx
                rw [List.mem_singleton.mp hx]
                exact List.elem_iff.mp hel
              · exact fun _ => rfl
            · simp at h
          · simp at h

theorem processRows_inv {rows : List RowMap} {idx : Nat} {qs : List Question}
    {skips : List String} (h : processRows idx rows = .ok (qs, skips)) :
    ∀ q ∈ qs, QInv q := by
  induction rows generalizing idx qs skips with
  | nil => simp only [processRows] at h; cases h; simp
  | cons r rest ih =>
    simp only [processRows] at h
    cases h1 : processRow idx r with
    | error e => rw [h1] at h; cases h
    | ok out =>
      rw [h1] at h
      cases h2 : processRows (idx + 1) rest with
      | error e => rw [h2] at h; cases h
      | ok p =>
        rw [h2] at h
        cases out with
        | emit q0 =>
          cases h
          intro q hq
          rcases List.mem_cons.mp hq with h3 | h3
          · subst h3; exact processRow_inv h1
          · exact ih h2 q h3
        | skip m =>
          cases h
          exact ih h2

theorem parse_questions_from_csv_inv {s : String} {qs : List Question} {m : String}
    (h : parse_questions_from_csv s = .ok (qs, m)) : ∀ q ∈ qs, QInv q := by
  unfold parse_questions_from_csv at h
  split at h
  · cases h; simp
  · dsimp only at h
    split at h
    · cases h; simp
    · split at h
      · cases h; simp
      · cases h; simp
      · next hdr rows heq =>
        split at h
        · cases h; simp
        · rcases hbn : buildNormRows (List.map normHeaderField hdr) 1 rows with ⟨nr, inc⟩
          rw [hbn] at h
          cases hp : processRows 1 nr with
          | error e => rw [hp] at h; cases h
          | ok p =>
            rw [hp] at h
            cases h
            exact processRows_inv hp

theorem rationales_map2_keys (rf : JsonFields) (letters cset : List String) :
    (∀ x ∈ cset, x ∈ letters) →
    ((if rf.hasKey "correct" ∧ cset.length = 1 then
        match cset with
        | c0 :: _ => assocSet c0 ((rf.get "correct").getD (.str ""))
            (letters.map (fun L => (L, (rf.get L).getD (.str ""))))
        | [] => letters.map (fun L => (L, (rf.get L).getD (.str "")))
      else letters.map (fun L => (L, (rf.get L).getD (.str ""))))).map Prod.fst
      = letters := by
  intro hsub
  split
  · cases cset with
    | nil => exact map_fst_pair_map _ _
    | cons c0 rest =>
      have hc0 : c0 ∈ (letters.map (fun L => (L, (rf.get L).getD (.str "")))).map Prod.fst := by
        rw [map_fst_pair_map]
        exact hsub c0 (List.mem_cons_self _ _)
      rw [assocSet_keys hc0, map_fst_pair_map]
  · exact map_fst_pair_map _ _

theorem finishJson_inv {idx : Nat} {qf : JsonFields} {question_text : String}
    {is_sata : Bool} {choices cset letters : List String} {q : Question}
    (hch : choices.filterMap firstLetter = letters)
    (hsub : ∀ x ∈ cset, x ∈ letters)
    (hlen : is_sata = false → cset.length = 1)
    (h : finishJson idx qf question_text is_sata choices cset letters = .ok (.emit q)) :
    QInv q := by
  unfold finishJson at h
  split at h
  · next rf heq =>
    dsimp only at h
    split at h
    · next hcond =>
      cases hst : asStr (jGetD qf "search_term" (.str "")) with
      | error e => rw [hst] at h; cases h
      | ok st0 =>
        rw [hst] at h
        cases h
        refine ⟨hcond.2.2, ?_, ?_, ?_⟩
        · intro L hL
          simp only [qLetters, hch]
          exact hsub L hL
        · intro hty
          simp only at hty
          cases hs : is_sata with
          | false => exact hlen hs
          | true => rw [hs] at hty; simp at hty
        · simp only [qLetters, hch]
          exact rationales_map2_keys rf letters cset hsub
    · cases h
  · cases h

theorem processJsonQ_inv {idx : Nat} {j : Json} {q : Question}
    (h : processJsonQ idx j = .ok (.emit q)) : QInv q := by
  unfold processJsonQ at h
  cases j with
  | null => cases h
  | bool b => cases h
  | num raw => cases h
  | str s => cases h
  | arr es => cases h
  | obj qf =>
    dsimp only at h
    cases h1 : asStr (jGetD qf "question_text" (.str "")) with
    | error e => rw [h1] at h; cases h
    | ok qt0 =>
      rw [h1] at h
      dsimp only at h
      cases h2 : asStr (jGetD qf "question_type" (.str "")) with
      | error e => rw [h2] at h; cases h
      | ok ty0 =>
        rw [h2] at h
        dsimp only at h
        cases h3 : lettersOf (jGetD qf "options" (.obj .nil)) all_letters with
        | error e => rw [h3] at h; cases h
        | ok letters =>
          rw [h3] at h
          dsimp only at h
          cases h4 : choicesOf (jGetD qf "options" (.obj .nil)) letters with
          | error e => rw [h4] at h; cases h
          | ok choices =>
            rw [h4] at h
            dsimp only at h
            have hch : choices.filterMap firstLetter = letters :=
              choicesOf_filterMap h4
                (fun L hL => mem_all_letters_data (lettersOf_mem h3 L hL))
            split at h
            · next hsata =>
              split at h
              · simp at h
              · cases h5 : pyIter (jGetD qf "correct_answers" (.arr .nil)) with
                | error e => rw [h5] at h; cases h
                | ok items =>
                  rw [h5] at h
                  dsimp only at h
                  cases h6 : multiFromItems letters items [] with
                  | error e => rw [h6] at h; cases h
                  | ok cset =>
                    rw [h6] at h
                    dsimp only at h
                    split at h
                    · simp at h
                    · refine finishJson_inv hch ?_ ?_ h
                      · exact multiFromItems_subset h6 (by simp)
                      · intro hf
                        rw [hf] at hsata
                        cases hsata
            · next hsata =>
              split at h
              · simp at h
              · cases h7 : asStr (jGetD qf "correct_answer" (.str "")) with
                | error e => rw [h7] at h; cases h
                | ok ca0 =>
                  rw [h7] at h
                  dsimp only at h
                  split at h
                  · next hel =>
                    refine finishJson_inv hch ?_ ?_ h
                    · intro x hx
                      rw [List.mem_singleton.mp hx]
                      exact List.elem_iff.mp hel
                    · exact fun _ => rfl
                  · simp at h

theorem processJsonQs_inv {items : List Json} {idx : Nat} {qs : List Question}
    {skips : List String} (h : processJsonQs idx items = .ok (qs, skips)) :
    ∀ q ∈ qs, QInv q := by
  induction items generalizing idx qs skips with
  | nil => simp only [processJsonQs] at h; cases h; simp
  | cons j rest ih =>
    simp only [processJsonQs] at h
    cases h1 : processJsonQ idx j with
    | error e => rw [h1] at h; cases h
    | ok out =>
      rw [h1] at h
      cases h2 : processJsonQs (idx + 1) rest with
      | error e => rw [h2] at h; cases h
      | ok p =>
        rw [h2] at h
        cases out with
        | emit q0 =>
          cases h
          intro q hq
          rcases List.mem_cons.mp hq with h3 | h3
          · subst h3; exact processJsonQ_inv h1
          · exact ih h2 q h3
        | skip m =>
          cases h
          exact ih h2

theorem jsonFallback_inv {s : String} {qs : List Question} {m : String}
    (h : jsonFallback s = .ok (qs, m)) : ∀ q ∈ qs, QInv q := by
  unfold jsonFallback at h
  dsimp only at h
  split at h
  · cases h; simp
  · split at h
    · next df heq =>
      split at h
      · cases h1 : pyIter (jGetD df "questions" (.arr .nil)) with
        | error e => rw [h1] at h; cases h
        | ok items =>
          rw [h1] at h
          dsimp only at h
          cases h2 : processJsonQs 1 items with
          | error e => rw [h2] at h; cases h
          | ok p =>
            rw [h2] at h
            cases h
            exact processJsonQs_inv h2
      · cases h; simp
    · cases h; simp

example : pyStrip "  hello world \t " = "hello world" := by decide

example : pySplitlines "a\rb\r\nc".data = ["a".data, "b".data, "c".data] := by decide

example : applyFence "pre ```csv\nhello\n``` post".data = "hello".data := by decide

example : lineMatchesHeader "  QUESTION_TYPE , x".data = true := by decide

example : lineMatchesHeader "question_typex,".data = false := by decide

example : parse_questions_from_csv c1BugInput = .error .attributeError := rfl

example :
    parse_questions_from_csv csvPreambleInput =
      .ok ([csvPreambleQuestion], "Parsed successfully") := rfl

example :
    parse_questions_from_csv sata3Input =
      .ok ([], "No valid questions parsed.\nSkipped rows: Row 1: SATA requires 6 options, found 3") := rfl

example : parse_questions sata3Input = .ok ([], "Invalid JSON format.") := rfl

example :
    parse_questions_from_csv c5MultiInput = .ok ([c5MultiQuestion], "Parsed successfully") := rfl

example :
    processRow 1 c5SingleRow = .ok (.skip (invalidSingleMsg 1 "Z" ["A", "B", "C", "D"])) := rfl

example : parse_questions_from_csv c6CexInput = .error .attributeError := rfl

example :
    parse_questions_from_csv c6AmInput = .ok ([c6AmQuestion], "Parsed successfully") := rfl

example : (parse_questions_from_csv c8Input).map (fun p => p.1.length) = .ok 1 := rfl

example :
    (pySplitlines (csvClean c8Input)).all (fun l => ! specHeaderLineMatch l) = true := by decide

example : specHeaderLineMatch ("  " ++ fullHeader ++ " ").data = true := by decide

example :
    parse_questions_from_csv c8NoHeaderInput = .ok ([], "No valid CSV header found.") := rfl

example :
    processRow 1 c10Row =
      .ok (.emit
        { q := "S?", type := "sata",
          choices := ["A. o1", "B. o2", "C. o3", "D. o4", "E. o5", "F. o6"],
          correct_set := ["B"],
          rationales := [("A", .str "r1"), ("B", .str "r2"), ("C", .str "r3"),
                         ("D", .str "r4"), ("E", .str "r5"), ("F", .str "r6")],
          search_term := "yt" }) := rfl

/-- Claim C1: the spec states the tabular parser never raises on malformed
content — every failure returns an empty list plus a diagnostic — in
particular when the discovered header lacks `option_<letter>` or
`rationale_<letter>` columns.  The code violates this: `row.get` on the
constructed key returns `None` and `_clean_text` calls `.strip()` on it,
raising `AttributeError`.  This theorem evaluates the parser at such an
input (header with only the four required columns, one data row) and
shows the modelled exception. -/
theorem C1_missing_option_column_raises :
    parse_questions_from_csv c1BugInput = .error .attributeError := rfl

/-- Claim C2: every question emitted by either parser path has a
non-empty `correct_set` drawn from its option letters, a singleton
`correct_set` when its type is `mcq`, and a rationale entry for exactly
the letters present in its options. -/
theorem C2_emitted_question_invariants :
    (∀ (s : String) (qs : List Question) (m : String),
      parse_questions_from_csv s = .ok (qs, m) → ∀ q ∈ qs, QInv q) ∧
    (∀ (s : String) (qs : List Question) (m : String),
      jsonFallback s = .ok (qs, m) → ∀ q ∈ qs, QInv q) :=
  ⟨fun _ _ _ h => parse_questions_from_csv_inv h,
   fun _ _ _ h => jsonFallback_inv h⟩

/-- Witness for C2 at a concrete nested-JSON input. -/
theorem C2_emitted_question_invariants_witness : QInv jsonOneQuestion :=
  C2_emitted_question_invariants.2 jsonOneInput [jsonOneQuestion] "Parsed successfully"
    rfl jsonOneQuestion (List.mem_singleton.mpr rfl)

/-- Claim C3: the dispatcher returns the tabular result whenever it
accepted at least one question, falls back to the nested-JSON parse
exactly when the tabular parse accepted zero questions, and on a raw
text that is valid nested JSON with one valid question object (while the
tabular parse accepts nothing) returns exactly that one question. -/
theorem C3_csv_first_json_fallback :
    (∀ (s : String) (qs : List Question) (m : String),
      parse_questions_from_csv s = .ok (qs, m) → qs ≠ [] →
      parse_questions s = .ok (qs, m)) ∧
    (∀ (s m : String),
      parse_questions_from_csv s = .ok ([], m) →
      parse_questions s = jsonFallback s) ∧
    parse_questions jsonOneInput = .ok ([jsonOneQuestion], "Parsed successfully") := by
  refine ⟨?_, ?_, rfl⟩
  · intro s qs m h hne
    unfold parse_questions
    rw [h]
    simp [hne]
  · intro s m h
    unfold parse_questions
    rw [h]
    simp

/-- Witness for C3 at a concrete tabular input accepted by the primary
parser. -/
theorem C3_csv_first_json_fallback_witness :
    parse_questions csvPreambleInput = .ok ([csvPreambleQuestion], "Parsed successfully") :=
  C3_csv_first_json_fallback.1 csvPreambleInput [csvPreambleQuestion]
    "Parsed successfully" rfl (by simp)

/-- Claim C9: the parse is deterministic — the embedding of
`parse_questions` is a pure function of the raw text (the source reads no
mutable state that affects its return value), so two runs on the same
input are equal. -/
theorem C9_parse_deterministic : ∀ s : String, parse_questions s = parse_questions s :=
  fun _ => rfl

/-- Counterexample for claim C7: the claim says the parser accepts exactly
one question from the full header plus the row
`mcq,"Pick one","a","b",,,,,A,,,,,,,,"term"`; the code accepts none —
the row has only two populated options and the minimum for a
multiple-choice row is four. -/
theorem C7_two_option_row_cex :
    (parse_questions_from_csv c7Input).map (fun p => p.1) = .ok [] := rfl

/-- Amended claim C7: on that input the parser accepts zero questions,
skipping the sole data row with the insufficient-options message naming
four expected and two found. -/
theorem C7_two_option_row_rejected :
    parse_questions_from_csv c7Input =
      .ok ([], "No valid questions parsed.\nSkipped rows: Row 1: MCQ requires 4 options, found 2") :=
  rfl

/-- Counterexample for claim C4: the claim says a MULTI record with three
populated options and a non-empty correct set is accepted in lenient
mode; the code has no lenient mode or configuration — its only parse
functions reject the record unconditionally. -/
theorem C4_no_lenient_mode_cex :
    parse_questions_from_csv sata3Input =
      .ok ([], "No valid questions parsed.\nSkipped rows: Row 1: SATA requires 6 options, found 3") ∧
    parse_questions sata3Input = .ok ([], "Invalid JSON format.") :=
  ⟨rfl, rfl⟩

/-- Amended claim C4: in both parser paths, a record whose populated
option count is below the classified cardinality's minimum (4 for
single-answer, 6 for multi-answer) is always rejected with a message
naming the required and found counts; no lenient mode exists. -/
theorem C4_min_options_always_rejected :
    (∀ (idx : Nat) (row : RowMap) (opts : List (String × String)),
      rowQuestionText row ≠ "" →
      buildOptions row all_letters = .ok opts →
      opts.length < rowMinOptions row →
      processRow idx row =
        .ok (.skip (insufficientMsg idx (rowQtRaw row) (rowMinOptions row) opts.length))) ∧
    (∀ (idx : Nat) (qf : JsonFields) (qt0 ty0 : String) (letters choices : List String),
      asStr (jGetD qf "question_text" (.str "")) = .ok qt0 →
      asStr (jGetD qf "question_type" (.str "")) = .ok ty0 →
      lettersOf (jGetD qf "options" (.obj .nil)) all_letters = .ok letters →
      choicesOf (jGetD qf "options" (.obj .nil)) letters = .ok choices →
      letters.length < (if jsonIsSataOf qf (pyLower ty0) then 6 else 4) →
      processJsonQ idx (.obj qf) =
        .ok (.skip (jsonInsufficientMsg idx (pyLower ty0)
          (if jsonIsSataOf qf (pyLower ty0) then 6 else 4) letters.length))) := by
  constructor
  · intro idx row opts hq hopts hlt
    unfold processRow
    dsimp only
    rw [if_neg hq, hopts]
    dsimp only
    simp only [List.length_map]
    rw [if_pos hlt]
  · intro idx qf qt0 ty0 letters choices h1 h2 h3 h4 hlt
    unfold processJsonQ
    dsimp only
    rw [h1]
    dsimp only
    rw [h2]
    dsimp only
    rw [h3]
    dsimp only
    rw [h4]
    dsimp only
    cases hs : jsonIsSataOf qf (pyLower ty0) with
    | true =>
      rw [hs] at hlt
      rw [show (if (true = true) then (6 : Nat) else 4) = 6 from rfl] at hlt ⊢
      rw [if_pos hlt]
    | false =>
      rw [hs] at hlt
      rw [show (if (false = true) then (6 : Nat) else 4) = 4 from rfl] at hlt ⊢
      rw [if_pos hlt]

/-- Witness for C4 at a concrete three-option multi-answer row. -/
theorem C4_min_options_witness :
    processRow 1 sata3Row = .ok (.skip (insufficientMsg 1 "sata" 6 3)) := by
  exact C4_min_options_always_rejected.1 1 sata3Row
    [("A", "o1"), ("B", "o2"), ("C", "o3")] (by decide) rfl (by decide)

theorem findHeaderTail_none {ls : List (List Char)}
    (h : ∀ l ∈ ls, lineMatchesHeader l = false) : findHeaderTail ls = none := by
  induction ls with
  | nil => rfl
  | cons l rest ih =>
    simp only [findHeaderTail]
    rw [h l (List.mem_cons_self _ _)]
    exact ih (fun x hx => h x (List.mem_cons_of_mem _ hx))

/-- Counterexample for claim C5: a single-classified record whose
`correct_answer` is empty after trimming (hence not a letter of its
options) is rejected, but with the generic no-valid-answer message, not
the invalid-single-answer reason the claim names. -/
theorem C5_empty_single_answer_cex :
    processRow 1 c5EmptyCaRow =
      .ok (.skip "Row 1: No valid correct_answer or correct_answers") := rfl

/-- Amended claim C5: a single-classified record whose upper-cased
trimmed `correct_answer` is not a letter of its options is always
rejected — with the invalid-answer message naming the raw value and the
letter list when the value is non-empty, and with the distinct
no-valid-answer message when it is empty; and multi-answer tokens are
individually filtered, so `A;C;Z` over options A-F yields the accepted
set `{A, C}` with `Z` silently dropped. -/
theorem C5_single_invalid_multi_filtered :
    (∀ (idx : Nat) (row : RowMap) (opts : List (String × String)),
      rowQuestionText row ≠ "" →
      rowIsSata row = false →
      buildOptions row all_letters = .ok opts →
      ¬ opts.length < 4 →
      (opts.map Prod.fst).contains (pyUpper (rowCaSingle row)) = false →
      ((rowCaSingle row ≠ "" →
        processRow idx row =
          .ok (.skip (invalidSingleMsg idx (rowCaSingle row) (opts.map Prod.fst)))) ∧
       (rowCaSingle row = "" →
        processRow idx row =
          .ok (.skip ("Row " ++ toString idx ++ ": No valid correct_answer or correct_answers"))))) ∧
    parse_questions_from_csv c5MultiInput = .ok ([c5MultiQuestion], "Parsed successfully") := by
  refine ⟨?_, rfl⟩
  intro idx row opts hq hs hopts hlen hel
  have hne : ¬ (opts.map Prod.fst).length < rowMinOptions row := by
    rw [List.length_map]
    unfold rowMinOptions
    rw [hs]
    exact hlen
  have hsata : ¬ (rowIsSata row = true ∧ rowCaMulti row ≠ "") := by
    rw [hs]; simp
  constructor
  · intro hcane
    unfold processRow
    dsimp only
    rw [if_neg hq, hopts]
    dsimp only
    rw [if_neg hne, if_neg hsata, if_pos hcane, if_neg (by rw [hel]; simp)]
  · intro hca
    unfold processRow
    dsimp only
    rw [if_neg hq, hopts]
    dsimp only
    rw [if_neg hne, if_neg hsata, if_neg (by rw [hca]; simp)]

/-- Witness for C5 at a concrete row with `correct_answer = "Z"` and
options A-D. -/
theorem C5_single_invalid_witness :
    processRow 1 c5SingleRow = .ok (.skip (invalidSingleMsg 1 "Z" ["A", "B", "C", "D"])) := by
  exact (C5_single_invalid_multi_filtered.1 1 c5SingleRow
    [("A", "w"), ("B", "x"), ("C", "y"), ("D", "z")]
    (by decide) rfl rfl (by decide) (by decide)).1 (by decide)

/-- Counterexample for claim C6: at a record whose header has
`a_rationale` but no `rationale_a`, the claim predicts an accepted
question with `rationales["A"] == "x"`; the code instead raises
`AttributeError` on the missing `rationale_a` lookup — the
`<letter>_rationale` naming is never tried. -/
theorem C6_rationale_fallback_cex :
    parse_questions_from_csv c6CexInput = .error .attributeError := rfl

/-- Amended claim C6: rationales are read from `rationale_<letter>` only
(its cleaned value, absent key raising), never from `<letter>_rationale`;
a record with `rationale_a` present but empty and `a_rationale = "x"`
yields an empty rationale for `A`. -/
theorem C6_rationale_read_only_canonical :
    (∀ (row : RowMap) (ls : List String) (rats : List (String × Json)),
      buildRationales row ls = .ok rats →
      rats = ls.map (fun L =>
        (L, Json.str (_clean_text ((rowGet row ("rationale_" ++ pyLower L)).getD ""))))) ∧
    parse_questions_from_csv c6AmInput = .ok ([c6AmQuestion], "Parsed successfully") :=
  ⟨fun _ _ _ h => buildRationales_eq h, rfl⟩

/-- Witness for C6: the rationale map of a concrete row equals the
canonical per-letter `rationale_<letter>` reads. -/
theorem C6_rationale_read_witness :
    [("A", Json.str "r1")] = ["A"].map (fun L =>
      (L, Json.str (_clean_text ((rowGet c10Row ("rationale_" ++ pyLower L)).getD "")))) :=
  C6_rationale_read_only_canonical.1 c10Row ["A"] [("A", Json.str "r1")] rfl

/-- Counterexample for claim C8: no line of this input matches the
expected header's field names in order (the spec's criterion), yet the
parser accepts one question — the code only requires a line starting
with `question_type` and a comma, plus the four required names anywhere
in it. -/
theorem C8_header_scan_cex :
    (pySplitlines (csvClean c8Input)).all (fun l => ! specHeaderLineMatch l) = true ∧
    (parse_questions_from_csv c8Input).map (fun p => p.1.length) = .ok 1 :=
  ⟨by decide, rfl⟩

/-- Amended claim C8: the scan looks, case-insensitively, for the first
line beginning with optional whitespace, `question_type`, optional
whitespace and a comma; earlier lines are preamble; if no line matches,
the parse returns the empty list with the no-header message; with one
preamble line before a full header and one valid data row, that one
question is accepted. -/
theorem C8_header_scan_amended :
    (∀ s : String, pyStrip s ≠ "" →
      (pySplitlines (csvClean s)).all (fun l => ! lineMatchesHeader l) = true →
      parse_questions_from_csv s = .ok ([], "No valid CSV header found.")) ∧
    parse_questions_from_csv csvPreambleInput =
      .ok ([csvPreambleQuestion], "Parsed successfully") := by
  refine ⟨?_, rfl⟩
  intro s hq hall
  unfold parse_questions_from_csv
  rw [if_neg hq]
  dsimp only
  rw [findHeaderTail_none]
  intro l hl
  have := List.all_eq_true.mp hall l hl
  simpa using this

/-- Witness for C8 at a concrete input with no header-like line. -/
theorem C8_header_scan_witness :
    parse_questions_from_csv c8NoHeaderInput = .ok ([], "No valid CSV header found.") :=
  C8_header_scan_amended.1 c8NoHeaderInput (by decide) (by decide)

/-- Claim C10: a tabular record classified multi-answer whose
`correct_answers` is empty after trimming but whose `correct_answer`
names an offered letter is not rejected for lacking multi answers: it
falls through to the single-answer branch and is accepted as a `sata`
question whose `correct_set` is that one letter. -/
theorem C10_sata_single_answer_fallback :
    ∀ (idx : Nat) (row : RowMap) (opts : List (String × String))
      (rats : List (String × Json)),
      rowQuestionText row ≠ "" →
      rowIsSata row = true →
      buildOptions row all_letters = .ok opts →
      ¬ opts.length < 6 →
      rowCaMulti row = "" →
      rowCaSingle row ≠ "" →
      (opts.map Prod.fst).contains (pyUpper (rowCaSingle row)) = true →
      buildRationales row (opts.map Prod.fst) = .ok rats →
      processRow idx row = .ok (.emit
        { q := rowQuestionText row
          type := "sata"
          choices := opts.map (fun p => p.1 ++ ". " ++ p.2)
          correct_set := [pyUpper (rowCaSingle row)]
          rationales := rats
          search_term := _clean_text (rowGetD row "youtube_search_term" "") }) := by
  intro idx row opts rats hq hs hopts hlen hm hca hel hrats
  have hne : ¬ (opts.map Prod.fst).length < rowMinOptions row := by
    rw [List.length_map]
    unfold rowMinOptions
    rw [hs]
    exact hlen
  have hsata : ¬ (rowIsSata row = true ∧ rowCaMulti row ≠ "") := by
    rw [hm]; simp
  have hopts_ne : opts.map (fun p => p.1 ++ ". " ++ p.2) ≠ [] := by
    intro hnil
    apply hlen
    rw [List.map_eq_nil_iff.mp hnil]
    simp
  unfold processRow
  dsimp only
  rw [if_neg hq, hopts]
  dsimp only
  rw [if_neg hne, if_neg hsata, if_pos hca, if_pos hel]
  unfold finishCsv
  rw [hrats]
  dsimp only
  rw [if_pos ⟨hq, hopts_ne, by simp⟩, hs]
  rfl

/-- Witness for C10 at a concrete six-option row with
`correct_answers = ""` and `correct_answer = "b"`. -/
theorem C10_sata_single_answer_fallback_witness :
    processRow 1 c10Row = .ok (.emit
      { q := "S?", type := "sata",
        choices := ["A. o1", "B. o2", "C. o3", "D. o4", "E. o5", "F. o6"],
        correct_set := ["B"],
        rationales := [("A", .str "r1"), ("B", .str "r2"), ("C", .str "r3"),
                       ("D", .str "r4"), ("E", .str "r5"), ("F", .str "r6")],
        search_term := "yt" }) := by
  exact C10_sata_single_answer_fallback 1 c10Row
    [("A", "o1"), ("B", "o2"), ("C", "o3"), ("D", "o4"), ("E", "o5"), ("F", "o6")]
    [("A", .str "r1"), ("B", .str "r2"), ("C", .str "r3"),
     ("D", .str "r4"), ("E", .str "r5"), ("F", .str "r6")]
    (by decide) rfl rfl (by decide) rfl (by decide) (by decide) rfl

example : csvReader "a,b\n\nc".data = .ok [["a", "b"], [], ["c"]] := rfl

example : csvReader "a,".data = .ok [["a", ""]] := rfl

example : csvReader " \"a\"x, b".data = .ok [["ax", "b"]] := rfl

example : csvReader "\"a\nb\",c".data = .ok [["a\nb", "c"]] := rfl

example : csvReader "\"unclosed".data = .ok [["unclosed"]] := rfl

example : csvReader "a,\"\"b\"\",c".data = .ok [["a", "b\"\"", "c"]] := rfl

example : csvReader "a,\"b\" ,c".data = .ok [["a", "b ", "c"]] := rfl

example : csvReader "\"a\"\"b\",c".data = .ok [["a\"b", "c"]] := rfl

example : multiCorrectSet ["A", "B", "C", "D", "E", "F"] "A;C;Z" = ["A", "C"] := by decide

example : multiCorrectSet ["A", "B"] "b  a; ;b" = ["A", "B"] := by decide

example :
    parse_questions_from_csv (fullHeader ++ "\nmcq,\"Pick one\",\"a\",\"b\",,,,,A,,,,,,,,\"term\"") =
      .ok ([], "No valid questions parsed.\nSkipped rows: Row 1: MCQ requires 4 options, found 2") := by
  rfl

example :
    parse_questions_from_csv
      ("Some preamble text\n" ++ fullHeader ++
        "\nmcq,\"Q1?\",\"o1\",\"o2\",\"o3\",\"o4\",,,A,,\"r1\",\"r2\",\"r3\",\"r4\",,,\"yt\"") =
      .ok ([{ q := "Q1?", type := "mcq",
              choices := ["A. o1", "B. o2", "C. o3", "D. o4"],
              correct_set := ["A"],
              rationales := [("A", .str "r1"), ("B", .str "r2"),
                             ("C", .str "r3"), ("D", .str "r4")],
              search_term := "yt" }], "Parsed successfully") := by
  rfl

example :
    json_loads "[1, -2.5e3, \"a\\nb\", true, null]".data =
      some (.arr (JsonList.ofList
        [.num "1", .num "-2.5e3", .str "a\nb", .bool true, .null])) := rfl

example :
    json_loads " \x7b\"a\": 1, \"a\": 2, \"b\": \x7b\x7d\x7d ".data =
      some (.obj (.cons "a" (.num "2") (.cons "b" (.obj .nil) .nil))) := rfl

example : json_loads "\x7b\"a\":1,\x7d".data = none := rfl

example : json_loads "01".data = none := rfl

example :
    parse_questions_from_csv jsonOneInput = .ok ([], "No valid CSV header found.") := rfl

example :
    parse_questions jsonOneInput = .ok ([jsonOneQuestion], "Parsed successfully") := rfl

example : parse_questions "just some prose" = .ok ([], "Invalid JSON format.") := rfl

end NCLEXQ
